import Mathlib

/-!
# Verification of the cn-infra secure configuration layer

Shallow embedding of two source areas of the repository:

* the `cryptodata` client (`EncryptData` / `DecryptData`): RSA-OAEP
  encryption with a base64 URL codec and trial decryption over a keyring
  of private keys;
* the gRPC `Config` (`getGrpcOptions`, `getTLS`, `GetPort`): server
  options with keepalive policy, TLS derivation from declarative
  configuration, and port extraction from the endpoint string.

Bytes are modelled as `Nat` (meaningful when `< 256`), Go errors as
explicit `Except`/`Option` results, the filesystem consulted by the TLS
loader as an explicit environment record, and the external RSA-OAEP
primitives as function parameters constrained by the contract of the
`crypto/rsa` library.
-/

/-! ## Base64 URL codec (model of Go `encoding/base64` `URLEncoding`) -/

/-- The RFC 4648 URL-safe alphabet as a function from a 6-bit value to the
ASCII code of its encoding character: `A`-`Z`, `a`-`z`, `0`-`9`, `-`, `_`. -/
def b64Char (v : Nat) : Nat :=
  if v < 26 then 65 + v
  else if v < 52 then 71 + v
  else if v < 62 then v - 4
  else if v = 62 then 45
  else 95

/-- Inverse of the URL-safe alphabet: maps the ASCII code of an alphabet
character back to its 6-bit value, and anything else (including the padding
character `=`, ASCII 61) to `none`. -/
def b64Index (c : Nat) : Option Nat :=
  if 65 ≤ c ∧ c ≤ 90 then some (c - 65)
  else if 97 ≤ c ∧ c ≤ 122 then some (c - 71)
  else if 48 ≤ c ∧ c ≤ 57 then some (c + 4)
  else if c = 45 then some 62
  else if c = 95 then some 63
  else none

/-- Model of `base64.URLEncoding.EncodeToString`: encode a byte sequence in
3-byte groups into 4 alphabet characters, padding the final partial group
with `=` (ASCII 61). -/
def base64UrlEncode : List Nat → List Nat
  | [] => []
  | [b0] => [b64Char (b0 / 4), b64Char (b0 % 4 * 16), 61, 61]
  | [b0, b1] => [b64Char (b0 / 4), b64Char (b0 % 4 * 16 + b1 / 16), b64Char (b1 % 16 * 4), 61]
  | b0 :: b1 :: b2 :: rest =>
    b64Char (b0 / 4) :: b64Char (b0 % 4 * 16 + b1 / 16) ::
      b64Char (b1 % 16 * 4 + b2 / 64) :: b64Char (b2 % 64) :: base64UrlEncode rest

/-- Model of `base64.URLEncoding.DecodeString`: decode 4 characters at a
time, accepting `=` padding only at the very end of the input and rejecting
any character outside the alphabet or any truncated group (`none` stands for
Go's `CorruptInputError`). -/
def base64UrlDecode : List Nat → Option (List Nat)
  | [] => some []
  | c0 :: c1 :: c2 :: c3 :: rest =>
    match b64Index c0, b64Index c1 with
    | some v0, some v1 =>
      if c2 = 61 then
        if c3 = 61 then
          if rest = [] then some [v0 * 4 + v1 / 16] else none
        else none
      else
        match b64Index c2 with
        | some v2 =>
          if c3 = 61 then
            if rest = [] then some [v0 * 4 + v1 / 16, v1 % 16 * 16 + v2 / 4] else none
          else
            match b64Index c3 with
            | some v3 =>
              match base64UrlDecode rest with
              | some ds => some ((v0 * 4 + v1 / 16) :: (v1 % 16 * 16 + v2 / 4) :: (v2 % 4 * 64 + v3) :: ds)
              | none => none
            | none => none
        | none => none
    | _, _ => none
  | _ => none

/-- Decoding inverts encoding on each alphabet value. -/
theorem b64Index_b64Char : ∀ v : Nat, v < 64 → b64Index (b64Char v) = some v := by
  decide

/-- No alphabet character is the padding character `=` (ASCII 61). -/
theorem b64Char_ne_pad : ∀ v : Nat, v < 64 → b64Char v ≠ 61 := by
  decide

/-- Round-trip law of the base64 model: decoding an encoded byte sequence
returns exactly the original bytes. -/
theorem base64UrlDecode_encode : ∀ bs : List Nat, (∀ b ∈ bs, b < 256) →
    base64UrlDecode (base64UrlEncode bs) = some bs
  | [], _ => rfl
  | [b0], h => by
    have hb0 : b0 < 256 := h b0 (by simp)
    simp only [base64UrlEncode, base64UrlDecode]
    rw [b64Index_b64Char _ (by omega), b64Index_b64Char _ (by omega)]
    dsimp only
    simp only [if_true, Option.some.injEq, List.cons.injEq, and_true]
    omega
  | [b0, b1], h => by
    have hb0 : b0 < 256 := h b0 (by simp)
    have hb1 : b1 < 256 := h b1 (by simp)
    simp only [base64UrlEncode, base64UrlDecode]
    rw [b64Index_b64Char _ (by omega), b64Index_b64Char _ (by omega)]
    dsimp only
    rw [if_neg (b64Char_ne_pad _ (by omega))]
    rw [b64Index_b64Char _ (by omega)]
    dsimp only
    simp only [if_true, Option.some.injEq, List.cons.injEq, and_true]
    omega
  | b0 :: b1 :: b2 :: rest, h => by
    have hb0 : b0 < 256 := h b0 (by simp)
    have hb1 : b1 < 256 := h b1 (by simp)
    have hb2 : b2 < 256 := h b2 (by simp)
    have ih := base64UrlDecode_encode rest (fun b hb => h b (by simp at hb ⊢; tauto))
    simp only [base64UrlEncode, base64UrlDecode]
    rw [b64Index_b64Char _ (by omega), b64Index_b64Char _ (by omega)]
    dsimp only
    rw [if_neg (b64Char_ne_pad _ (by omega))]
    rw [b64Index_b64Char _ (by omega)]
    dsimp only
    rw [if_neg (b64Char_ne_pad _ (by omega))]
    rw [b64Index_b64Char _ (by omega)]
    dsimp only
    rw [ih]
    dsimp only
    simp only [Option.some.injEq, List.cons.injEq, and_true]
    refine ⟨by omega, by omega, by omega⟩

/-! ## Cryptodata client (`cryptodata` package, `Client.EncryptData` /
`Client.DecryptData`)

The external `crypto/rsa` primitives `EncryptOAEP` / `DecryptOAEP` (closed
over the client's hash and randomness source) are taken as function
parameters from keys (identified by `Nat`) and byte sequences to results;
the repository code around them is translated directly. -/

/-- The two failure modes of `Client.DecryptData`: the base64 decode error
(Go's `CorruptInputError`, returned before any key is tried) and the
distinct `errors.New` value "failed to decrypt data due to no private key
matching" returned after every key fails. -/
inductive DecryptError where
  | decodingError
  | noMatchingKey
deriving DecidableEq, Repr

/-- Model of `Client.EncryptData`: encrypt with RSA-OAEP under the supplied
public key, then base64-encode the output unconditionally (on encryption
failure the encrypted data is `nil`, so the returned payload is the encoding
of the empty sequence) and return the payload together with the error of the
encryption step. -/
def EncryptData (encryptOAEP : Nat → List Nat → Except String (List Nat))
    (pub : Nat) (inData : List Nat) : List Nat × Option String :=
  match encryptOAEP pub inData with
  | .ok d => (base64UrlEncode d, none)
  | .error e => (base64UrlEncode [], some e)

/-- The keyring loop of `Client.DecryptData`: try RSA-OAEP decryption with
each private key in order and return the first successful plaintext, or the
no-matching-key error when every key fails. -/
def tryKeys (decryptOAEP : Nat → List Nat → Except String (List Nat))
    (raw : List Nat) : List Nat → Except DecryptError (List Nat)
  | [] => .error .noMatchingKey
  | k :: ks =>
    match decryptOAEP k raw with
    | .ok d => .ok d
    | .error _ => tryKeys decryptOAEP raw ks

/-- Model of `Client.DecryptData`: base64-decode the input, returning the
decoding error immediately on failure, then run the keyring loop on the
decoded ciphertext. -/
def DecryptData (decryptOAEP : Nat → List Nat → Except String (List Nat))
    (privateKeys : List Nat) (inData : List Nat) : Except DecryptError (List Nat) :=
  match base64UrlDecode inData with
  | none => .error .decodingError
  | some raw => tryKeys decryptOAEP raw privateKeys

/-- Model of the message-length gate of Go's `rsa.EncryptOAEP`: with `k` the
key size in bytes and `hashSize` the hash output size, a message longer than
`k - 2*hashSize - 2` (computed in `Int`, as Go computes it in `int`) is
rejected with `ErrMessageTooLong`; otherwise the OAEP/RSA core (abstracted
as `core`) runs. -/
def encryptOAEP (keySize hashSize : Nat) (core : List Nat → List Nat)
    (msg : List Nat) : Except String (List Nat) :=
  if (msg.length : Int) > (keySize : Int) - 2 * (hashSize : Int) - 2 then
    .error "crypto/rsa: message too long for RSA public key size"
  else
    .ok (core msg)

/-- Concrete OAEP stand-in used to instantiate the round-trip theorems:
key 5 is the matching private key for public key 5, the ciphertext of
`[10, 20]` is `[15, 25]`, and every other decryption attempt fails. -/
def encW : Nat → List Nat → Except String (List Nat) :=
  fun _ _ => .ok [15, 25]

/-- Concrete OAEP decryption stand-in paired with `encW`. -/
def decW : Nat → List Nat → Except String (List Nat) :=
  fun k c => if k = 5 ∧ c = [15, 25] then .ok [10, 20] else .error "crypto/rsa: decryption error"

/-! ## gRPC configuration (`rpc/grpc/config.go`)

Bytes of configuration files are `List Nat`, durations are `Nat`
nanoseconds, Go's `int` is `Int` and `uint32` is `Nat`. The filesystem and
the x509 parsers consulted by `getTLS` are an explicit environment
record `FS`. -/

/-- The `Config` struct of `rpc/grpc/config.go` (field for field). -/
structure Config where
  Endpoint : String
  Permission : Int
  ForceSocketRemoval : Bool
  Network : String
  MaxMsgSize : Int
  MaxConcurrentStreams : Nat
  InsecureTransport : Bool
  Certfile : String
  Keyfile : String
  CAfiles : List String
  ExtendedLogging : Bool
  PrometheusMetrics : Bool
  KeepaliveEnable : Bool
  KeepaliveClientPingMinTime : Nat
  KeepalivePermitWithoutStream : Bool
  KeepaliveIdlePingInterval : Nat
  KeepalivePingTimeout : Nat
  KeepaliveMaxConnectionAge : Nat
  KeepaliveMaxConnectionIdle : Nat
deriving Repr

/-- One second of Go's `time.Duration`, in nanoseconds. -/
def second : Nat := 1000000000

/-- `keepalive.EnforcementPolicy` of `google.golang.org/grpc/keepalive`. -/
structure EnforcementPolicy where
  minTime : Nat
  permitWithoutStream : Bool
deriving DecidableEq, Repr

/-- `keepalive.ServerParameters` (the fields `config.go` touches; the
others stay at their zero value throughout). -/
structure ServerParameters where
  time : Nat
  timeout : Nat
  maxConnectionAge : Nat
  maxConnectionIdle : Nat
deriving DecidableEq, Repr

/-- The `grpc.ServerOption` values `getGrpcOptions` can emit. -/
inductive ServerOption where
  | maxConcurrentStreams (n : Nat)
  | maxRecvMsgSize (n : Int)
  | keepaliveEnforcementPolicy (p : EnforcementPolicy)
  | keepaliveParams (p : ServerParameters)
deriving DecidableEq, Repr

/-- The enforcement policy built inside `getGrpcOptions` when keepalive is
enabled: defaults `MinTime = 20s`, `PermitWithoutStream = false`, each field
overwritten only when its override is set. -/
def keepaliveKaep (cfg : Config) : EnforcementPolicy :=
  let kaep : EnforcementPolicy := { minTime := 20 * second, permitWithoutStream := false }
  let kaep := if 0 < cfg.KeepaliveClientPingMinTime then
    { kaep with minTime := cfg.KeepaliveClientPingMinTime * second } else kaep
  if cfg.KeepalivePermitWithoutStream then
    { kaep with permitWithoutStream := cfg.KeepalivePermitWithoutStream } else kaep

/-- The server parameters built inside `getGrpcOptions` when keepalive is
enabled: defaults `Time = 7200s`, `Timeout = 20s`, zero-valued
`MaxConnectionAge` / `MaxConnectionIdle`, each field overwritten only when
its override is set. -/
def keepaliveKasp (cfg : Config) : ServerParameters :=
  let kasp : ServerParameters :=
    { time := 7200 * second, timeout := 20 * second, maxConnectionAge := 0, maxConnectionIdle := 0 }
  let kasp := if 0 < cfg.KeepalivePingTimeout then
    { kasp with timeout := cfg.KeepalivePingTimeout * second } else kasp
  let kasp := if 0 < cfg.KeepaliveIdlePingInterval then
    { kasp with time := cfg.KeepaliveIdlePingInterval * second } else kasp
  let kasp := if 0 < cfg.KeepaliveMaxConnectionAge then
    { kasp with maxConnectionAge := cfg.KeepaliveMaxConnectionAge * second } else kasp
  if 0 < cfg.KeepaliveMaxConnectionIdle then
    { kasp with maxConnectionIdle := cfg.KeepaliveMaxConnectionIdle * second } else kasp

/-- Model of `Config.getGrpcOptions`: stream and message-size limits when
positive, then (only under `KeepaliveEnable`) the enforcement policy and
server parameters. -/
def getGrpcOptions (cfg : Config) : List ServerOption :=
  let opts : List ServerOption := []
  let opts := if 0 < cfg.MaxConcurrentStreams then
    opts ++ [ServerOption.maxConcurrentStreams cfg.MaxConcurrentStreams] else opts
  let opts := if 0 < cfg.MaxMsgSize then
    opts ++ [ServerOption.maxRecvMsgSize cfg.MaxMsgSize] else opts
  if cfg.KeepaliveEnable then
    opts ++ [ServerOption.keepaliveEnforcementPolicy (keepaliveKaep cfg),
             ServerOption.keepaliveParams (keepaliveKasp cfg)]
  else opts

/-- Environment of `getTLS`: the filesystem (`files` is the content of each
readable path), the x509 key-pair parser behind `tls.LoadX509KeyPair`, and
the PEM certificate parser behind `x509.CertPool.AppendCertsFromPEM`
(`validPEM d = true` iff at least one certificate parses from `d`). -/
structure FS where
  files : String → Option (List Nat)
  parseKeyPair : List Nat → List Nat → Except String Unit
  validPEM : List Nat → Bool

/-- The errors `getTLS` can return, keeping their provenance: `readError f`
is an `fs.PathError` naming file `f`, `keyPairError` a certificate/key parse
failure inside `tls.LoadX509KeyPair`, and `appendCAError f` the
`fmt.Errorf("failed to add CA from '%s' file", f)` value. -/
inductive TLSError where
  | readError (file : String)
  | keyPairError (e : String)
  | appendCAError (file : String)
deriving DecidableEq, Repr

/-- A loaded `tls.Certificate`, keeping the PEM blocks it was parsed from. -/
structure Certificate where
  certPEM : List Nat
  keyPEM : List Nat
deriving DecidableEq, Repr

/-- Go `tls.ClientAuthType` (the two values `config.go` can produce). -/
inductive ClientAuthType where
  | noClientCert
  | requireAndVerifyClientCert
deriving DecidableEq, Repr

/-- The `tls.Config` fields set by `getTLS`. -/
structure TLSConfig where
  minVersion : Nat
  certificates : List Certificate
  clientCAs : List (List Nat)
  clientAuth : ClientAuthType
deriving DecidableEq, Repr

/-- `ioutil.ReadFile` over the explicit filesystem: a missing path yields a
path error naming the file. -/
def readFile (fs : FS) (name : String) : Except TLSError (List Nat) :=
  match fs.files name with
  | some d => .ok d
  | none => .error (.readError name)

/-- `tls.LoadX509KeyPair`: read the certificate file, then the key file,
then parse them as an x509 key pair. -/
def loadX509KeyPair (fs : FS) (certFile keyFile : String) : Except TLSError Certificate :=
  match readFile fs certFile with
  | .error e => .error e
  | .ok c =>
    match readFile fs keyFile with
    | .error e => .error e
    | .ok k =>
      match fs.parseKeyPair c k with
      | .ok _ => .ok { certPEM := c, keyPEM := k }
      | .error e => .error (.keyPairError e)

/-- The CA loop of `getTLS`: read each configured CA file in order and
append it to the pool, failing on the first file that cannot be read or
contains no parseable PEM certificate (the latter with the error naming the
file). -/
def loadCAs (fs : FS) : List String → Except TLSError (List (List Nat))
  | [] => .ok []
  | c :: rest =>
    match readFile fs c with
    | .error e => .error e
    | .ok cert =>
      if fs.validPEM cert then
        match loadCAs fs rest with
        | .ok pool => .ok (cert :: pool)
        | .error e => .error e
      else .error (.appendCAError c)

/-- Model of `Config.getTLS`: `ok none` models Go's `nil, nil` (TLS
disabled), `ok (some tc)` a non-nil `*tls.Config`, `error e` a non-nil
error. `tls.VersionTLS12` is 771. -/
def getTLS (fs : FS) (cfg : Config) : Except TLSError (Option TLSConfig) :=
  if cfg.InsecureTransport then .ok none
  else if cfg.Certfile = "" ∧ cfg.Keyfile = "" then .ok none
  else
    match loadX509KeyPair fs cfg.Certfile cfg.Keyfile with
    | .error e => .error e
    | .ok cert =>
      if 0 < cfg.CAfiles.length then
        match loadCAs fs cfg.CAfiles with
        | .error e => .error e
        | .ok pool =>
          .ok (some { minVersion := 771, certificates := [cert],
                      clientCAs := pool, clientAuth := .requireAndVerifyClientCert })
      else
        .ok (some { minVersion := 771, certificates := [cert],
                    clientCAs := [], clientAuth := .noClientCert })

/-- `strings.LastIndex(s, ":")` followed by the slice `s[index+1:]`: the
text after the last colon, or `none` when the string has no colon. -/
def suffixAfterLastColon : List Char → Option (List Char)
  | [] => none
  | c :: rest =>
    match suffixAfterLastColon rest with
    | some s => some s
    | none => if c = ':' then some rest else none

/-- Model of `strconv.Atoi`: an optional sign followed by at least one
decimal digit, rejected (Go's `ErrSyntax` / `ErrRange`) on any other
character, on an empty digit string, or when the value leaves the 64-bit
`int` range. -/
def goAtoi (s : List Char) : Option Int :=
  let signed : Bool × List Char :=
    match s with
    | '-' :: r => (true, r)
    | '+' :: r => (false, r)
    | r => (false, r)
  let ds := signed.2
  if ds = [] then none
  else if ds.all (fun c => 48 ≤ c.toNat ∧ c.toNat ≤ 57) then
    let v : Nat := ds.foldl (fun a c => a * 10 + (c.toNat - 48)) 0
    let iv : Int := if signed.1 then -(v : Int) else (v : Int)
    if -(2 ^ 63) ≤ iv ∧ iv ≤ 2 ^ 63 - 1 then some iv else none
  else none

/-- Model of `Config.GetPort`: for an endpoint other than `""` and `":"`,
parse the text after the last colon with `strconv.Atoi` and return it when
parsing succeeds; in every other case return 0. -/
def GetPort (cfg : Config) : Int :=
  if cfg.Endpoint ≠ "" ∧ cfg.Endpoint ≠ ":" then
    match suffixAfterLastColon cfg.Endpoint.data with
    | some suf =>
      match goAtoi suf with
      | some port => port
      | none => 0
    | none => 0
  else 0

/-- Port extraction as the spec words it (`EffectivePort`): the integer
parsed from the trailing `:port` suffix of the endpoint, and 0 when the
suffix is absent or unparseable. Stated from the spec, to be compared with
`GetPort`. -/
def specEffectivePort (endpoint : String) : Int :=
  match suffixAfterLastColon endpoint.data with
  | some suf => (goAtoi suf).getD 0
  | none => 0

/-- An endpoint-only configuration (every other field at its Go zero
value), as produced by unmarshalling a config file containing only
`endpoint`. -/
def configWithEndpoint (e : String) : Config :=
  { Endpoint := e, Permission := 0, ForceSocketRemoval := false, Network := "",
    MaxMsgSize := 0, MaxConcurrentStreams := 0, InsecureTransport := false,
    Certfile := "", Keyfile := "", CAfiles := [], ExtendedLogging := false,
    PrometheusMetrics := false, KeepaliveEnable := false,
    KeepaliveClientPingMinTime := 0, KeepalivePermitWithoutStream := false,
    KeepaliveIdlePingInterval := 0, KeepalivePingTimeout := 0,
    KeepaliveMaxConnectionAge := 0, KeepaliveMaxConnectionIdle := 0 }

/-- A filesystem with no readable files (every read fails), for concrete
instantiations. -/
def fsEmpty : FS :=
  { files := fun _ => none,
    parseKeyPair := fun _ _ => .error "tls: failed to find any PEM data in certificate input",
    validPEM := fun _ => false }

/-- A filesystem holding a key pair and one good CA bundle (content `[3]`,
the only content that parses as PEM), for concrete instantiations. -/
def fsW : FS :=
  { files := fun name =>
      if name = "server.crt" then some [1]
      else if name = "server.key" then some [2]
      else if name = "good-ca.pem" then some [3]
      else none,
    parseKeyPair := fun _ _ => .ok (),
    validPEM := fun d => d == [3] }

/-- Configuration with a certificate file but no key file. -/
def cfgCertOnly : Config :=
  { configWithEndpoint "" with Certfile := "server.crt" }

/-- Configuration with a key pair and CA files of which the second is
missing from the filesystem. -/
def cfgTwoCAs : Config :=
  { configWithEndpoint "" with
    Certfile := "server.crt", Keyfile := "server.key",
    CAfiles := ["good-ca.pem", "bad-ca.pem"] }

/-- Configuration with keepalive enabled and a single override set. -/
def cfgKeepalive : Config :=
  { configWithEndpoint "" with KeepaliveEnable := true, KeepalivePingTimeout := 30 }

/-- Configuration with keepalive disabled but keepalive thresholds and a
message-size limit set. -/
def cfgNoKeepalive : Config :=
  { configWithEndpoint "" with KeepaliveClientPingMinTime := 99, MaxMsgSize := 5 }

/-! ## Keyring loop lemmas -/

/-- The keyring loop returns the plaintext of a key that decrypts
successfully, provided every key in the ring that succeeds yields that same
plaintext (the soundness guarantee OAEP's integrity check gives real RSA
keyrings). -/
theorem tryKeys_mem_sound (dec : Nat → List Nat → Except String (List Nat))
    (raw p : List Nat) : ∀ (keys : List Nat) (priv : Nat), priv ∈ keys →
    dec priv raw = .ok p →
    (∀ k ∈ keys, ∀ d, dec k raw = .ok d → d = p) →
    tryKeys dec raw keys = .ok p
  | [], priv, hpriv, _, _ => absurd hpriv (List.not_mem_nil priv)
  | k :: ks, priv, hpriv, hdec, hsound => by
    simp only [tryKeys]
    cases hk : dec k raw with
    | ok d => rw [hsound k (by simp) d hk]
    | error e =>
      rcases List.mem_cons.mp hpriv with hp | hp
      · rw [hp] at hdec; rw [hdec] at hk; cases hk
      · exact tryKeys_mem_sound dec raw p ks priv hp hdec
          (fun j hj => hsound j (List.mem_cons_of_mem k hj))

/-- The keyring loop skips every failing key and returns the plaintext of
the first key that decrypts successfully. -/
theorem tryKeys_first_success (dec : Nat → List Nat → Except String (List Nat))
    (raw d : List Nat) (k : Nat) (ks2 : List Nat) (hk : dec k raw = .ok d) :
    ∀ ks1 : List Nat, (∀ j ∈ ks1, ∀ d', dec j raw ≠ .ok d') →
    tryKeys dec raw (ks1 ++ k :: ks2) = .ok d
  | [], _ => by simp only [List.nil_append, tryKeys, hk]
  | j :: ks1, hfail => by
    simp only [List.cons_append, tryKeys]
    cases hj : dec j raw with
    | ok d' => exact absurd hj (hfail j (by simp) d')
    | error e =>
      exact tryKeys_first_success dec raw d k ks2 hk ks1
        (fun j' hj' => hfail j' (List.mem_cons_of_mem j hj'))

/-- The keyring loop fails with the no-matching-key error when every key
fails. -/
theorem tryKeys_all_fail (dec : Nat → List Nat → Except String (List Nat))
    (raw : List Nat) : ∀ keys : List Nat, (∀ k ∈ keys, ∀ d, dec k raw ≠ .ok d) →
    tryKeys dec raw keys = .error .noMatchingKey
  | [], _ => rfl
  | k :: ks, hfail => by
    simp only [tryKeys]
    cases hk : dec k raw with
    | ok d => exact absurd hk (hfail k (by simp) d)
    | error e =>
      exact tryKeys_all_fail dec raw ks
        (fun j hj => hfail j (List.mem_cons_of_mem k hj))

/-! ## Claims C1, C4, C5, C6 (cryptodata client) -/

/-- C1: for every plaintext accepted by the OAEP primitive and every key
pair generated together — i.e. whenever decryption with the matching
private key inverts encryption and no key of the ring can "succeed" with a
different plaintext — `DecryptData` applied to the payload of `EncryptData`
returns exactly the original plaintext: base64 encode/decode and OAEP
encrypt/decrypt compose to the identity through the keyring. -/
theorem C1_encrypt_decrypt_roundtrip
    (enc dec : Nat → List Nat → Except String (List Nat))
    (pub priv : Nat) (keys : List Nat) (p c : List Nat)
    (henc : enc pub p = .ok c) (hc : ∀ b ∈ c, b < 256)
    (hpriv : priv ∈ keys) (hdec : dec priv c = .ok p)
    (hsound : ∀ k ∈ keys, ∀ d, dec k c = .ok d → d = p) :
    DecryptData dec keys (EncryptData enc pub p).1 = .ok p := by
  simp only [EncryptData, henc]
  simp only [DecryptData, base64UrlDecode_encode c hc]
  exact tryKeys_mem_sound dec c p keys priv hpriv hdec hsound

/-- C1 witness: the concrete stand-in scheme `encW`/`decW` with keyring
`[9, 5]` and matching key 5 round-trips the plaintext `[10, 20]`. -/
theorem C1_witness :
    DecryptData decW [9, 5] (EncryptData encW 5 [10, 20]).1 = .ok [10, 20] := by
  refine C1_encrypt_decrypt_roundtrip encW decW 5 5 [9, 5] [10, 20] [15, 25]
    rfl (by decide) (by simp) rfl ?_
  intro k hk d hd
  simp only [List.mem_cons, List.not_mem_nil, or_false] at hk
  rcases hk with h9 | h5
  · subst h9; simp [decW] at hd
  · subst h5; simp [decW] at hd; exact hd.symm

/-- C4: `DecryptData` tries the keyring in registration order and returns
the plaintext of the first key that decrypts successfully: for any keyring
`ks1 ++ k :: ks2` in which every key of `ks1` fails and `k` succeeds with
plaintext `d`, decryption of the encoded ciphertext returns `d`. -/
theorem C4_first_matching_key
    (dec : Nat → List Nat → Except String (List Nat))
    (ks1 ks2 : List Nat) (k : Nat) (raw d : List Nat)
    (hraw : ∀ b ∈ raw, b < 256)
    (hfail : ∀ j ∈ ks1, ∀ d', dec j raw ≠ .ok d')
    (hk : dec k raw = .ok d) :
    DecryptData dec (ks1 ++ k :: ks2) (base64UrlEncode raw) = .ok d := by
  simp only [DecryptData, base64UrlDecode_encode raw hraw]
  exact tryKeys_first_success dec raw d k ks2 hk ks1 hfail

/-- C4 witness: with keyring `[7, 5]` and a ciphertext only key 5 decrypts,
key 7 is tried first and fails, and decryption still succeeds with key 5's
plaintext. -/
theorem C4_witness :
    DecryptData decW [7, 5] (base64UrlEncode [15, 25]) = .ok [10, 20] := by
  refine C4_first_matching_key decW [7] [] 5 [15, 25] [10, 20] (by decide) ?_ rfl
  intro j hj d' hd'
  simp only [List.mem_singleton] at hj
  subst hj
  simp [decW] at hd'

/-- C5: the two failure modes of `DecryptData` are distinguishable and a
wrong plaintext is never returned: when base64 decoding fails the decoding
error is returned for every keyring (so no key is attempted), and when
decoding succeeds but every key fails the distinct no-matching-key error is
returned; the two error values differ. -/
theorem C5_failure_modes
    (dec : Nat → List Nat → Except String (List Nat))
    (keys : List Nat) (inData : List Nat) :
    (base64UrlDecode inData = none →
      ∀ (dec' : Nat → List Nat → Except String (List Nat)) (keys' : List Nat),
        DecryptData dec' keys' inData = .error .decodingError) ∧
    (∀ raw, base64UrlDecode inData = some raw →
      (∀ k ∈ keys, ∀ d, dec k raw ≠ .ok d) →
      DecryptData dec keys inData = .error .noMatchingKey) ∧
    DecryptError.decodingError ≠ DecryptError.noMatchingKey := by
  refine ⟨?_, ?_, by decide⟩
  · intro hfail dec' keys'
    simp only [DecryptData, hfail]
  · intro raw hok hfail
    simp only [DecryptData, hok]
    exact tryKeys_all_fail dec raw keys hfail

/-- C5 witness: the malformed input `[42]` (`*`, not base64) yields the
decoding error with the keyring untouched, and a well-encoded ciphertext no
key of the ring decrypts yields the no-matching-key error. -/
theorem C5_witness :
    DecryptData decW [5] [42] = .error .decodingError ∧
    DecryptData decW [9] (base64UrlEncode [1, 2]) = .error .noMatchingKey := by
  constructor
  · exact (C5_failure_modes decW [5] [42]).1 (by decide) decW [5]
  · refine (C5_failure_modes decW [9] (base64UrlEncode [1, 2])).2.1 [1, 2]
      (base64UrlDecode_encode [1, 2] (by decide)) ?_
    intro k hk d hd
    simp only [List.mem_singleton] at hk
    subst hk
    simp [decW] at hd

/-- C6: a plaintext longer than the OAEP bound `k - 2*hashSize - 2` makes
`EncryptData` return the message-too-long error, and the payload it returns
alongside is the encoding of the empty sequence — never the encoding of a
truncated (proper, non-empty) prefix of the plaintext. -/
theorem C6_oversized_payload_rejected
    (keySize hashSize : Nat) (core : List Nat → List Nat) (pub : Nat) (p : List Nat)
    (h : (p.length : Int) > (keySize : Int) - 2 * (hashSize : Int) - 2) :
    (EncryptData (fun _ m => encryptOAEP keySize hashSize core m) pub p).2 =
      some "crypto/rsa: message too long for RSA public key size" ∧
    (EncryptData (fun _ m => encryptOAEP keySize hashSize core m) pub p).1 =
      base64UrlEncode [] ∧
    ∀ k, 0 < k → k < p.length →
      base64UrlDecode (EncryptData (fun _ m => encryptOAEP keySize hashSize core m) pub p).1 ≠
        some (p.take k) := by
  refine ⟨?_, ?_, ?_⟩
  · simp [EncryptData, encryptOAEP, if_pos h]
  · simp [EncryptData, encryptOAEP, if_pos h]
  · intro k hk hkp htake
    simp only [EncryptData, encryptOAEP, if_pos h] at htake
    rw [base64UrlDecode_encode [] (by simp)] at htake
    have h0 : p.take k = [] := (Option.some.inj htake).symm
    have h1 : (p.take k).length = 0 := by rw [h0]; rfl
    rw [List.length_take] at h1
    omega

/-- C6 witness: a 3-byte plaintext with a 32-byte key and a 32-byte hash
(bound `32 - 64 - 2 < 0`) is rejected with the message-too-long error and
an empty payload. -/
theorem C6_witness :
    (EncryptData (fun _ m => encryptOAEP 32 32 id m) 0 [1, 2, 3]).2 =
      some "crypto/rsa: message too long for RSA public key size" ∧
    (EncryptData (fun _ m => encryptOAEP 32 32 id m) 0 [1, 2, 3]).1 =
      base64UrlEncode [] ∧
    ∀ k, 0 < k → k < [1, 2, 3].length →
      base64UrlDecode (EncryptData (fun _ m => encryptOAEP 32 32 id m) 0 [1, 2, 3]).1 ≠
        some ([1, 2, 3].take k) :=
  C6_oversized_payload_rejected 32 32 id 0 [1, 2, 3] (by decide)

/-! ## TLS loading lemmas -/

/-- A successful CA load returns one pool entry per configured CA file: the
content read from that file, which parsed as PEM. -/
theorem loadCAs_ok_spec (fs : FS) : ∀ (l : List String) (pool : List (List Nat)),
    loadCAs fs l = .ok pool →
    pool.length = l.length ∧
    ∀ i (hi : i < l.length) (hp : i < pool.length),
      fs.files (l.get ⟨i, hi⟩) = some (pool.get ⟨i, hp⟩) ∧
      fs.validPEM (pool.get ⟨i, hp⟩) = true
  | [], pool, h => by
    simp only [loadCAs, Except.ok.injEq] at h
    subst h
    refine ⟨rfl, ?_⟩
    intro i hi hp
    simp at hi
  | c :: rest, pool, h => by
    simp only [loadCAs, readFile] at h
    cases hcf : fs.files c with
    | none => rw [hcf] at h; simp at h
    | some cert =>
      rw [hcf] at h
      dsimp only at h
      by_cases hpem : fs.validPEM cert
      · rw [if_pos hpem] at h
        cases hrest : loadCAs fs rest with
        | error e => rw [hrest] at h; simp at h
        | ok pool' =>
          rw [hrest] at h
          simp only [Except.ok.injEq] at h
          subst h
          obtain ⟨hlen, hspec⟩ := loadCAs_ok_spec fs rest pool' hrest
          refine ⟨by simp [hlen], ?_⟩
          intro i hi hp
          cases i with
          | zero => exact ⟨hcf, hpem⟩
          | succ n =>
            exact hspec n (by simpa using hi) (by simpa using hp)
      · rw [if_neg hpem] at h
        simp at h

/-- The CA loop fails on the first bad CA file, with an error naming that
file: the read error when the file is unreadable, the append error when its
content parses as no PEM certificate. -/
theorem loadCAs_first_bad (fs : FS) (c : String)
    (hbad : fs.files c = none ∨ ∃ d, fs.files c = some d ∧ fs.validPEM d = false) :
    ∀ (pre post : List String),
    (∀ f ∈ pre, ∃ d, fs.files f = some d ∧ fs.validPEM d = true) →
    loadCAs fs (pre ++ c :: post) = .error (.readError c) ∨
    loadCAs fs (pre ++ c :: post) = .error (.appendCAError c)
  | [], post, _ => by
    simp only [List.nil_append, loadCAs, readFile]
    rcases hbad with hnone | ⟨d, hd, hpem⟩
    · rw [hnone]; left; rfl
    · rw [hd]
      dsimp only
      rw [if_neg (by simp [hpem])]
      right; rfl
  | f :: pre, post, hgood => by
    obtain ⟨d, hd, hpem⟩ := hgood f (by simp)
    simp only [List.cons_append, loadCAs, readFile]
    rw [hd]
    dsimp only
    rw [if_pos hpem]
    simp only [List.append_eq]
    rcases loadCAs_first_bad fs c hbad pre post
      (fun g hg => hgood g (List.mem_cons_of_mem f hg)) with hrec | hrec
    · rw [hrec]; left; rfl
    · rw [hrec]; right; rfl

/-! ## Claims C2, C3, C7 (TLS configuration) -/

/-- C2 counterexample: with both certificate and key file unset and
`InsecureTransport` false, `getTLS` still yields the disabled configuration
(`nil, nil`), so disabled TLS does not imply `InsecureTransport`. -/
theorem C2_counterexample :
    getTLS fsEmpty (configWithEndpoint "0.0.0.0:9111") = .ok none ∧
    (configWithEndpoint "0.0.0.0:9111").InsecureTransport = false :=
  ⟨rfl, rfl⟩

/-- C2 (amended): `getTLS` yields the disabled TLS configuration exactly
when `InsecureTransport` is set or both `Certfile` and `Keyfile` are empty;
in every other case it returns a non-nil TLS configuration or an error,
never silently leaving TLS off. -/
theorem C2_disabled_iff (fs : FS) (cfg : Config) :
    getTLS fs cfg = .ok none ↔
      (cfg.InsecureTransport = true ∨ (cfg.Certfile = "" ∧ cfg.Keyfile = "")) := by
  unfold getTLS
  cases hins : cfg.InsecureTransport with
  | true => simp
  | false =>
    simp only [Bool.false_eq_true, if_false, false_or]
    by_cases hck : cfg.Certfile = "" ∧ cfg.Keyfile = ""
    · simp [hck]
    · rw [if_neg hck]
      refine iff_of_false ?_ hck
      cases hkp : loadX509KeyPair fs cfg.Certfile cfg.Keyfile with
      | error e => simp
      | ok cert =>
        dsimp only
        by_cases hca : 0 < cfg.CAfiles.length
        · rw [if_pos hca]
          cases hcas : loadCAs fs cfg.CAfiles with
          | error e => simp
          | ok pool => simp
        · rw [if_neg hca]; simp

/-- C2 witness: a configuration with certificate material present and
`InsecureTransport` false is not reported as disabled. -/
theorem C2_witness :
    ¬ getTLS fsW cfgTwoCAs = .ok none := by
  rw [C2_disabled_iff fsW cfgTwoCAs]
  decide

/-- C3: with `InsecureTransport` false, a certificate file set and the key
file empty, `getTLS` returns an error (opening the empty key-file path
fails on any filesystem), never a usable or silently-disabled TLS
configuration. -/
theorem C3_missing_keyfile_errors (fs : FS) (cfg : Config)
    (hroot : fs.files "" = none)
    (hins : cfg.InsecureTransport = false)
    (hcert : cfg.Certfile ≠ "") (hkey : cfg.Keyfile = "") :
    ∃ e, getTLS fs cfg = .error e := by
  unfold getTLS
  rw [hins]
  simp only [Bool.false_eq_true, if_false]
  rw [if_neg (fun hck => hcert hck.1)]
  unfold loadX509KeyPair
  cases hcf : readFile fs cfg.Certfile with
  | error e => exact ⟨e, rfl⟩
  | ok c =>
    rw [hkey]
    unfold readFile
    rw [hroot]
    exact ⟨.readError "", rfl⟩

/-- C3 witness: the certificate-only configuration errors on the empty
filesystem. -/
theorem C3_witness : ∃ e, getTLS fsEmpty cfgCertOnly = .error e :=
  C3_missing_keyfile_errors fsEmpty cfgCertOnly rfl rfl (by decide) rfl

/-- C7: when `getTLS` succeeds with TLS enabled and at least one CA file is
configured, the returned configuration requires and verifies client
certificates against the pool built from exactly the configured CA files
(each pool entry is the parsed content of the corresponding file); and when
the TLS path is reached and some CA file is unreadable or contains no
parseable PEM certificate, `getTLS` fails with an error naming the first
such file. -/
theorem C7_client_ca_verification (fs : FS) (cfg : Config) :
    (∀ tc, getTLS fs cfg = .ok (some tc) → cfg.CAfiles ≠ [] →
      tc.clientAuth = .requireAndVerifyClientCert ∧
      tc.clientCAs.length = cfg.CAfiles.length ∧
      ∀ i (hi : i < cfg.CAfiles.length) (hp : i < tc.clientCAs.length),
        fs.files (cfg.CAfiles.get ⟨i, hi⟩) = some (tc.clientCAs.get ⟨i, hp⟩) ∧
        fs.validPEM (tc.clientCAs.get ⟨i, hp⟩) = true) ∧
    (∀ pre c post,
      cfg.InsecureTransport = false →
      ¬(cfg.Certfile = "" ∧ cfg.Keyfile = "") →
      cfg.CAfiles = pre ++ c :: post →
      (∀ f ∈ pre, ∃ d, fs.files f = some d ∧ fs.validPEM d = true) →
      (fs.files c = none ∨ ∃ d, fs.files c = some d ∧ fs.validPEM d = false) →
      (∃ cert, loadX509KeyPair fs cfg.Certfile cfg.Keyfile = .ok cert) →
      getTLS fs cfg = .error (.readError c) ∨
      getTLS fs cfg = .error (.appendCAError c)) := by
  constructor
  · intro tc htc hca
    unfold getTLS at htc
    by_cases hins : cfg.InsecureTransport
    · rw [if_pos hins] at htc; simp at htc
    · rw [if_neg hins] at htc
      by_cases hck : cfg.Certfile = "" ∧ cfg.Keyfile = ""
      · rw [if_pos hck] at htc; simp at htc
      · rw [if_neg hck] at htc
        cases hkp : loadX509KeyPair fs cfg.Certfile cfg.Keyfile with
        | error e => rw [hkp] at htc; simp at htc
        | ok cert =>
          rw [hkp] at htc
          dsimp only at htc
          have hca' : 0 < cfg.CAfiles.length := by
            cases hcaf : cfg.CAfiles with
            | nil => exact absurd hcaf hca
            | cons a l => simp [hcaf]
          rw [if_pos hca'] at htc
          cases hcas : loadCAs fs cfg.CAfiles with
          | error e => rw [hcas] at htc; simp at htc
          | ok pool =>
            rw [hcas] at htc
            simp only [Except.ok.injEq, Option.some.injEq] at htc
            obtain ⟨hlen, hspec⟩ := loadCAs_ok_spec fs cfg.CAfiles pool hcas
            subst htc
            exact ⟨rfl, hlen, hspec⟩
  · rintro pre c post hins hck hcaf hgood hbad ⟨cert, hkp⟩
    unfold getTLS
    rw [if_neg (by simp [hins]), if_neg hck, hkp]
    dsimp only
    have hca' : 0 < cfg.CAfiles.length := by rw [hcaf]; simp
    rw [if_pos hca', hcaf]
    rcases loadCAs_first_bad fs c hbad pre post hgood with hrec | hrec
    · rw [hrec]; left; rfl
    · rw [hrec]; right; rfl

/-- C7 witness: with a good first CA file and a missing second one,
`getTLS` fails with an error naming the second file. -/
theorem C7_witness :
    getTLS fsW cfgTwoCAs = .error (.readError "bad-ca.pem") ∨
    getTLS fsW cfgTwoCAs = .error (.appendCAError "bad-ca.pem") := by
  refine (C7_client_ca_verification fsW cfgTwoCAs).2 ["good-ca.pem"] "bad-ca.pem" []
    rfl (by decide) (by decide) ?_ (Or.inl rfl) ⟨{ certPEM := [1], keyPEM := [2] }, rfl⟩
  intro f hf
  simp only [List.mem_singleton] at hf
  subst hf
  exact ⟨[3], rfl, rfl⟩

/-! ## Keepalive lemmas -/

/-- The minimum client-ping interval of the built enforcement policy:
the override times one second when set, the 20-second default otherwise
(independent of every other field). -/
theorem keepaliveKaep_minTime (cfg : Config) :
    (keepaliveKaep cfg).minTime =
      if 0 < cfg.KeepaliveClientPingMinTime then cfg.KeepaliveClientPingMinTime * second
      else 20 * second := by
  unfold keepaliveKaep
  by_cases hp : cfg.KeepalivePermitWithoutStream <;>
    by_cases h1 : 0 < cfg.KeepaliveClientPingMinTime <;>
      simp [hp, h1]

/-- The ping timeout of the built server parameters: the override times one
second when set, the 20-second default otherwise (independent of every
other field). -/
theorem keepaliveKasp_timeout (cfg : Config) :
    (keepaliveKasp cfg).timeout =
      if 0 < cfg.KeepalivePingTimeout then cfg.KeepalivePingTimeout * second
      else 20 * second := by
  unfold keepaliveKasp
  dsimp only
  split_ifs <;> rfl

/-- The idle ping interval of the built server parameters: the override
times one second when set, the 7200-second default otherwise (independent
of every other field). -/
theorem keepaliveKasp_time (cfg : Config) :
    (keepaliveKasp cfg).time =
      if 0 < cfg.KeepaliveIdlePingInterval then cfg.KeepaliveIdlePingInterval * second
      else 7200 * second := by
  unfold keepaliveKasp
  dsimp only
  split_ifs <;> rfl

/-! ## Claims C8, C9, C10 (gRPC options and port extraction) -/

/-- C8: with keepalive enabled, `getGrpcOptions` emits an enforcement
policy and server parameters whose override fields act independently: a
zero override leaves the field at its built-in default (minimum client-ping
interval 20s, ping timeout 20s, idle ping interval 7200s), a positive
override replaces exactly that field, and the resulting interval is never
zero — a zero override never disables the mechanism. -/
theorem C8_keepalive_overrides (cfg : Config) (h : cfg.KeepaliveEnable = true) :
    ∃ kaep kasp,
      ServerOption.keepaliveEnforcementPolicy kaep ∈ getGrpcOptions cfg ∧
      ServerOption.keepaliveParams kasp ∈ getGrpcOptions cfg ∧
      (cfg.KeepaliveClientPingMinTime = 0 → kaep.minTime = 20 * second) ∧
      (0 < cfg.KeepaliveClientPingMinTime →
        kaep.minTime = cfg.KeepaliveClientPingMinTime * second) ∧
      (cfg.KeepalivePingTimeout = 0 → kasp.timeout = 20 * second) ∧
      (0 < cfg.KeepalivePingTimeout → kasp.timeout = cfg.KeepalivePingTimeout * second) ∧
      (cfg.KeepaliveIdlePingInterval = 0 → kasp.time = 7200 * second) ∧
      (0 < cfg.KeepaliveIdlePingInterval →
        kasp.time = cfg.KeepaliveIdlePingInterval * second) ∧
      kaep.minTime ≠ 0 ∧ kasp.timeout ≠ 0 ∧ kasp.time ≠ 0 := by
  refine ⟨keepaliveKaep cfg, keepaliveKasp cfg, ?_, ?_, ?_, ?_, ?_, ?_, ?_, ?_, ?_, ?_, ?_⟩
  · simp [getGrpcOptions, h]
  · simp [getGrpcOptions, h]
  · intro h0; rw [keepaliveKaep_minTime]; simp [h0]
  · intro h0; rw [keepaliveKaep_minTime]; simp [h0]
  · intro h0; rw [keepaliveKasp_timeout]; simp [h0]
  · intro h0; rw [keepaliveKasp_timeout]; simp [h0]
  · intro h0; rw [keepaliveKasp_time]; simp [h0]
  · intro h0; rw [keepaliveKasp_time]; simp [h0]
  · rw [keepaliveKaep_minTime]
    by_cases h0 : 0 < cfg.KeepaliveClientPingMinTime
    · rw [if_pos h0]; simp only [second]; omega
    · rw [if_neg h0]; simp only [second]; omega
  · rw [keepaliveKasp_timeout]
    by_cases h0 : 0 < cfg.KeepalivePingTimeout
    · rw [if_pos h0]; simp only [second]; omega
    · rw [if_neg h0]; simp only [second]; omega
  · rw [keepaliveKasp_time]
    by_cases h0 : 0 < cfg.KeepaliveIdlePingInterval
    · rw [if_pos h0]; simp only [second]; omega
    · rw [if_neg h0]; simp only [second]; omega

/-- C8 witness: keepalive enabled with only the ping-timeout override set
to 30 seconds. -/
theorem C8_witness :
    ∃ kaep kasp,
      ServerOption.keepaliveEnforcementPolicy kaep ∈ getGrpcOptions cfgKeepalive ∧
      ServerOption.keepaliveParams kasp ∈ getGrpcOptions cfgKeepalive ∧
      (cfgKeepalive.KeepaliveClientPingMinTime = 0 → kaep.minTime = 20 * second) ∧
      (0 < cfgKeepalive.KeepaliveClientPingMinTime →
        kaep.minTime = cfgKeepalive.KeepaliveClientPingMinTime * second) ∧
      (cfgKeepalive.KeepalivePingTimeout = 0 → kasp.timeout = 20 * second) ∧
      (0 < cfgKeepalive.KeepalivePingTimeout →
        kasp.timeout = cfgKeepalive.KeepalivePingTimeout * second) ∧
      (cfgKeepalive.KeepaliveIdlePingInterval = 0 → kasp.time = 7200 * second) ∧
      (0 < cfgKeepalive.KeepaliveIdlePingInterval →
        kasp.time = cfgKeepalive.KeepaliveIdlePingInterval * second) ∧
      kaep.minTime ≠ 0 ∧ kasp.timeout ≠ 0 ∧ kasp.time ≠ 0 :=
  C8_keepalive_overrides cfgKeepalive rfl

/-- C10: with keepalive disabled, `getGrpcOptions` emits no keepalive
enforcement policy and no keepalive server parameters, regardless of the
keepalive threshold fields. -/
theorem C10_keepalive_disabled (cfg : Config) (h : cfg.KeepaliveEnable = false) :
    (∀ kaep, ServerOption.keepaliveEnforcementPolicy kaep ∉ getGrpcOptions cfg) ∧
    (∀ kasp, ServerOption.keepaliveParams kasp ∉ getGrpcOptions cfg) := by
  constructor <;>
    · intro x
      simp only [getGrpcOptions, h, Bool.false_eq_true, if_false]
      split_ifs <;> simp

/-- C10 witness: keepalive disabled with a keepalive threshold and a
message-size limit set — no keepalive option is emitted. -/
theorem C10_witness :
    (∀ kaep, ServerOption.keepaliveEnforcementPolicy kaep ∉ getGrpcOptions cfgNoKeepalive) ∧
    (∀ kasp, ServerOption.keepaliveParams kasp ∉ getGrpcOptions cfgNoKeepalive) :=
  C10_keepalive_disabled cfgNoKeepalive rfl

/-- C9: `GetPort` agrees everywhere with the spec's `EffectivePort` — the
integer parsed from the text after the last colon of the endpoint, with 0
when that suffix is absent or unparseable — and in particular returns 9111
on `"0.0.0.0:9111"` and 0 on `":"` and `""`, with no error. -/
theorem C9_port_extraction :
    (∀ cfg : Config, GetPort cfg = specEffectivePort cfg.Endpoint) ∧
    GetPort (configWithEndpoint "0.0.0.0:9111") = 9111 ∧
    GetPort (configWithEndpoint ":") = 0 ∧
    GetPort (configWithEndpoint "") = 0 := by
  refine ⟨?_, by decide, by decide, by decide⟩
  intro cfg
  unfold GetPort specEffectivePort
  by_cases h1 : cfg.Endpoint = ""
  · rw [h1]; decide
  · by_cases h2 : cfg.Endpoint = ":"
    · rw [h2]; decide
    · rw [if_pos ⟨h1, h2⟩]
      cases hs : suffixAfterLastColon cfg.Endpoint.data with
      | none => rfl
      | some suf =>
        dsimp only
        cases ha : goAtoi suf with
        | none => rfl
        | some v => rfl
